import Mathlib

/-!
Verification development for the BreadClan/tournament Discord bot.

The repository contains four variants of the same application:
`src/index.js`, `src/unnamed/part_000`, and two files concatenated in
`src/unnamed/part_001` (called here the "first variant" V1, lines 1-710,
and the "second variant" V2, lines 711-1746).  This file gives a shallow
embedding of the tournament core of all variants:

* `generatePairings`   - `generatePairings` of `index.js` / `part_000` / V2
                         seen after the internal shuffle (no size guard,
                         winners start out null);
* `generatePairingsG`  - V2's `generatePairings` (size guard, winners null);
* `generatePairingsPre`- V1's `generatePairings` (size guard, BYE matches
                         pre-resolved);
* `joinA`/`joinB`/`joinV1`           - the `messageReactionAdd` handlers;
* `declareWinnerA`/`declareWinnerB`/`declareWinnerBp`
                       - the `/updatewinner` handlers of `index.js`+`part_000`,
                         of V2, and of V1 respectively.

The JS shuffle `[...players].sort(() => 0.5 - Math.random())` produces an
arbitrary permutation of its input; it is modelled by an explicit `shuffle`
function parameter, and theorems that need it assume the permutation
property pointwise.  Presentation-only state (embed contents, images) is
omitted; the fields of `tournamentState` that the core reads or writes are
kept.  Discord replies / `console.log` calls are modelled as explicit
outcome values and effect lists.
-/

namespace Tournament

/-- A participant as stored in `tournamentState.participants`:
`{ id: 'userID', username: 'username' }`. -/
structure Player where
  id : String
  username : String
deriving DecidableEq, Repr

/-- A bracket entry as produced by `generatePairings`:
`{ matchId, p1, p2, winner }` where `winner` is `null` until declared.
Slots hold usernames (strings), exactly as in the JS code. -/
structure Match where
  matchId : Nat
  p1 : String
  p2 : String
  winner : Option String
deriving DecidableEq, Repr

/-- The BYE sentinel pushed by `generatePairings`:
`{ id: 'BYE', username: 'BYE' }`. -/
def BYEplayer : Player := { id := "BYE", username := "BYE" }

/-- The loop `let p = 1; while (p < n) { p *= 2 }` with explicit fuel
(`n` units suffice because `n < 2 ^ n`). -/
def nextPowGo (n : Nat) : Nat → Nat → Nat
  | 0, p => p
  | fuel + 1, p => if p < n then nextPowGo n fuel (p * 2) else p

/-- `nextPowerOfTwo` as computed in every `generatePairings` variant. -/
def nextPowerOfTwo (n : Nat) : Nat := nextPowGo n n 1

/-- The padding loop: append `nextPowerOfTwo(len) - len` BYE sentinels. -/
def padWithByes (l : List Player) : List Player :=
  l ++ List.replicate (nextPowerOfTwo l.length - l.length) BYEplayer

/-- One iteration of the pairing loop of `index.js` (`part_000`, V2):
`{ matchId: i+1, p1: s[i].username, p2: s[s.length-1-i].username, winner: null }`. -/
def pairOf (s : List Player) (i : Nat) : Match :=
  { matchId := i + 1
    p1 := (s.getD i BYEplayer).username
    p2 := (s.getD (s.length - 1 - i) BYEplayer).username
    winner := none }

/-- The pairing loop `for (i = 0; i < s.length / 2; i++)`.  JS divides as
floats, so for odd `s.length` the loop still runs `⌈length/2⌉` times;
`(length + 1) / 2` reproduces that exactly. -/
def makePairings (s : List Player) : List Match :=
  (List.range ((s.length + 1) / 2)).map (pairOf s)

/-- `generatePairings` of `index.js` and `part_000`, applied to the already
shuffled list: no size guard, winners start out `null`. -/
def generatePairings (shuffled : List Player) : List Match :=
  makePairings (padWithByes shuffled)

/-- `generatePairings` of the second `part_001` variant: the
`players.length < 2` guard returns `[]`, winners start out `null`. -/
def generatePairingsG (shuffled : List Player) : List Match :=
  if shuffled.length < 2 then [] else makePairings (padWithByes shuffled)

/-- One iteration of the pairing loop of the first `part_001` variant,
which pre-resolves BYE matches: if one slot is `'BYE'` the winner is set
immediately to the other slot. -/
def pairOfPre (s : List Player) (i : Nat) : Match :=
  { matchId := i + 1
    p1 := (s.getD i BYEplayer).username
    p2 := (s.getD (s.length - 1 - i) BYEplayer).username
    winner :=
      if (s.getD i BYEplayer).username = "BYE" then
        some (s.getD (s.length - 1 - i) BYEplayer).username
      else if (s.getD (s.length - 1 - i) BYEplayer).username = "BYE" then
        some (s.getD i BYEplayer).username
      else none }

/-- `generatePairings` of the first `part_001` variant: size guard plus
BYE pre-resolution. -/
def generatePairingsPre (shuffled : List Player) : List Match :=
  if shuffled.length < 2 then []
  else (List.range (((padWithByes shuffled).length + 1) / 2)).map
    (pairOfPre (padWithByes shuffled))

/-- Both slot strings of a match. -/
def matchSlots (m : Match) : List String := [m.p1, m.p2]

/-- All slot strings of a round, in bracket order. -/
def allSlots (br : List Match) : List String := br.flatMap matchSlots

/- ### Characterisation of `nextPowerOfTwo` -/

theorem nextPowGo_pow_eq (n : Nat) :
    ∀ fuel k, (∀ j, j < k → 2 ^ j < n) → n ≤ 2 ^ k * 2 ^ fuel →
      nextPowGo n fuel (2 ^ k) = 2 ^ Nat.clog 2 n := by
  have base : ∀ k, (∀ j, j < k → 2 ^ j < n) → n ≤ 2 ^ k →
      2 ^ k = 2 ^ Nat.clog 2 n := by
    intro k hmin hle
    congr 1
    have h1 : Nat.clog 2 n ≤ k := (Nat.le_pow_iff_clog_le (by norm_num)).1 hle
    rcases Nat.eq_zero_or_pos k with hk | hk
    · omega
    · have h2 : 2 ^ (k - 1) < n := hmin _ (by omega)
      have h3 : ¬ (Nat.clog 2 n ≤ k - 1) := by
        intro hc
        have := (Nat.le_pow_iff_clog_le (b := 2) (by norm_num)).2 hc
        omega
      omega
  intro fuel
  induction fuel with
  | zero =>
    intro k hmin hle
    simpa [nextPowGo] using base k hmin (by simpa using hle)
  | succ fuel ih =>
    intro k hmin hle
    by_cases h : 2 ^ k < n
    · have step : nextPowGo n (fuel + 1) (2 ^ k) = nextPowGo n fuel (2 ^ (k + 1)) := by
        simp [nextPowGo, h, pow_succ]
      rw [step]
      refine ih (k + 1) ?_ ?_
      · intro j hj
        rcases Nat.lt_succ_iff_lt_or_eq.1 hj with hj' | hj'
        · exact hmin j hj'
        · subst hj'; exact h
      · calc n ≤ 2 ^ k * 2 ^ (fuel + 1) := hle
          _ = 2 ^ (k + 1) * 2 ^ fuel := by ring
    · have step : nextPowGo n (fuel + 1) (2 ^ k) = 2 ^ k := by
        simp [nextPowGo, h]
      rw [step]
      exact base k hmin (by omega)

theorem nextPowerOfTwo_eq_pow_clog (n : Nat) :
    nextPowerOfTwo n = 2 ^ Nat.clog 2 n := by
  have h := nextPowGo_pow_eq n n 0 (by omega)
    (by simpa using Nat.le_of_lt (Nat.lt_two_pow n))
  simpa [nextPowerOfTwo] using h

theorem le_nextPowerOfTwo (n : Nat) : n ≤ nextPowerOfTwo n := by
  rw [nextPowerOfTwo_eq_pow_clog]
  exact Nat.le_pow_clog (by norm_num) n

theorem nextPowerOfTwo_min (n j : Nat) (h : n ≤ 2 ^ j) :
    nextPowerOfTwo n ≤ 2 ^ j := by
  rw [nextPowerOfTwo_eq_pow_clog]
  exact Nat.pow_le_pow_right (by norm_num)
    ((Nat.le_pow_iff_clog_le (by norm_num)).1 h)

theorem nextPowerOfTwo_eq_double (n : Nat) (h : 2 ≤ n) :
    nextPowerOfTwo n = 2 * 2 ^ (Nat.clog 2 n - 1) := by
  rw [nextPowerOfTwo_eq_pow_clog]
  have hpos : 0 < Nat.clog 2 n := Nat.clog_pos (by norm_num) h
  calc 2 ^ Nat.clog 2 n = 2 ^ (1 + (Nat.clog 2 n - 1)) := by congr 1; omega
    _ = 2 * 2 ^ (Nat.clog 2 n - 1) := by rw [pow_add, pow_one]

theorem length_padWithByes (l : List Player) :
    (padWithByes l).length = nextPowerOfTwo l.length := by
  have := le_nextPowerOfTwo l.length
  simp [padWithByes]
  omega

/- ### The pairing loop visits every padded index exactly once -/

/-- The indices touched by the pairing loop: block `i` contributes slot
indices `i` and `n - 1 - i`. -/
def pairIdx (n : Nat) : List Nat :=
  (List.range ((n + 1) / 2)).flatMap (fun i => [i, n - 1 - i])

theorem pairIdx_even_step (m : Nat) :
    pairIdx (2 * m + 2)
      = 0 :: (2 * m + 1) :: (pairIdx (2 * m)).map Nat.succ := by
  have hrange : (2 * m + 2 + 1) / 2 = m + 1 := by omega
  have hrange' : (2 * m + 1) / 2 = m := by omega
  rw [pairIdx, hrange, List.range_succ_eq_map, List.flatMap_cons, List.flatMap_map]
  rw [pairIdx, hrange']
  have hfun : ∀ i ∈ List.range m,
      [Nat.succ i, 2 * m + 2 - 1 - Nat.succ i]
        = (fun i => (List.map Nat.succ [i, 2 * m - 1 - i])) i := by
    intro i hi
    have him : i < m := List.mem_range.1 hi
    have harith : 2 * m + 2 - 1 - Nat.succ i = Nat.succ (2 * m - 1 - i) := by omega
    simp [harith]
    omega
  have hcongr := List.flatMap_congr hfun
  rw [hcongr, ← List.map_flatMap]
  have h0 : 2 * m + 2 - 1 - 0 = 2 * m + 1 := by omega
  simp [h0]

theorem pairIdx_perm_range (m : Nat) :
    List.Perm (pairIdx (2 * m)) (List.range (2 * m)) := by
  induction m with
  | zero => simp [pairIdx]
  | succ m ih =>
    have h2 : 2 * (m + 1) = 2 * m + 2 := by ring
    rw [h2, pairIdx_even_step]
    have hr : List.range (2 * m + 2)
        = 0 :: ((List.range (2 * m)).map Nat.succ ++ [2 * m + 1]) := by
      rw [show 2 * m + 2 = (2 * m + 1) + 1 from rfl, List.range_succ,
        List.range_succ_eq_map, List.cons_append]
    rw [hr]
    refine List.Perm.cons 0 ?_
    have p1 : List.Perm ((2 * m + 1) :: (pairIdx (2 * m)).map Nat.succ)
        ((2 * m + 1) :: (List.range (2 * m)).map Nat.succ) :=
      List.Perm.cons _ (ih.map Nat.succ)
    have p2 : List.Perm ((2 * m + 1) :: (List.range (2 * m)).map Nat.succ)
        ((List.range (2 * m)).map Nat.succ ++ [2 * m + 1]) :=
      (List.perm_append_singleton _ _).symm
    exact p1.trans p2

theorem map_getD_range {α : Type} (d : α) :
    ∀ l : List α, (List.range l.length).map (fun i => l.getD i d) = l := by
  intro l
  induction l with
  | nil => simp
  | cons a t ih =>
    have : (a :: t).length = t.length + 1 := rfl
    rw [this, List.range_succ_eq_map, List.map_cons, List.map_map]
    have hfun : ((fun i => (a :: t).getD i d) ∘ Nat.succ)
        = fun i => t.getD i d := by
      funext i; simp
    rw [hfun, ih]
    simp

theorem allSlots_makePairings (s : List Player) :
    allSlots (makePairings s)
      = (pairIdx s.length).map (fun i => (s.getD i BYEplayer).username) := by
  rw [allSlots, makePairings, pairIdx, List.flatMap_map, List.map_flatMap]
  refine List.flatMap_congr ?_
  intro i _
  simp [Function.comp, matchSlots, pairOf]

theorem allSlots_makePairings_perm (s : List Player) (m : Nat)
    (hlen : s.length = 2 * m) :
    List.Perm (allSlots (makePairings s)) (s.map Player.username) := by
  rw [allSlots_makePairings, hlen]
  have h1 : List.Perm ((pairIdx (2 * m)).map (fun i => (s.getD i BYEplayer).username))
      ((List.range (2 * m)).map (fun i => (s.getD i BYEplayer).username)) :=
    (pairIdx_perm_range m).map _
  refine h1.trans ?_
  have h2 : (List.range (2 * m)).map (fun i => (s.getD i BYEplayer).username)
      = ((List.range s.length).map (fun i => s.getD i BYEplayer)).map Player.username := by
    rw [hlen, List.map_map]
    rfl
  rw [h2, map_getD_range]

/- ### Shape of a generated round -/

theorem nextPowerOfTwo_half (n : Nat) (h : 2 ≤ n) :
    ∃ m, 1 ≤ m ∧ nextPowerOfTwo n = 2 * m := by
  refine ⟨2 ^ (Nat.clog 2 n - 1), Nat.one_le_two_pow, nextPowerOfTwo_eq_double n h⟩

theorem allSlots_generatePairings_perm (shuffled : List Player)
    (h2 : 2 ≤ shuffled.length) :
    List.Perm (allSlots (generatePairings shuffled))
      (shuffled.map Player.username
        ++ List.replicate (nextPowerOfTwo shuffled.length - shuffled.length) "BYE") := by
  obtain ⟨m, _, hm⟩ := nextPowerOfTwo_half shuffled.length h2
  have hlen : (padWithByes shuffled).length = 2 * m := by
    rw [length_padWithByes, hm]
  have h := allSlots_makePairings_perm (padWithByes shuffled) m hlen
  rw [generatePairings]
  refine h.trans ?_
  rw [padWithByes, List.map_append, List.map_replicate]
  exact List.Perm.refl _

theorem count_allSlots_generatePairings (shuffled : List Player) (x : String)
    (h2 : 2 ≤ shuffled.length) :
    (allSlots (generatePairings shuffled)).count x
      = (shuffled.map Player.username).count x
        + (if x = "BYE" then nextPowerOfTwo shuffled.length - shuffled.length else 0) := by
  rw [(allSlots_generatePairings_perm shuffled h2).count_eq, List.count_append,
    List.count_replicate]
  by_cases hx : x = "BYE"
  · simp [hx, BYEplayer]
  · simp [hx, BYEplayer, Ne.symm hx]

theorem length_generatePairings (shuffled : List Player)
    (h2 : 2 ≤ shuffled.length) :
    (generatePairings shuffled).length = nextPowerOfTwo shuffled.length / 2 := by
  obtain ⟨m, _, hm⟩ := nextPowerOfTwo_half shuffled.length h2
  rw [generatePairings, makePairings, List.length_map, List.length_range,
    length_padWithByes, hm]
  omega

theorem matchIds_generatePairings (shuffled : List Player) :
    (generatePairings shuffled).map Match.matchId
      = (List.range ((generatePairings shuffled).length)).map (fun i => i + 1) := by
  rw [generatePairings, makePairings, List.map_map, List.length_map, List.length_range]
  rfl

theorem generatePairingsG_eq (shuffled : List Player) (h2 : 2 ≤ shuffled.length) :
    generatePairingsG shuffled = generatePairings shuffled := by
  rw [generatePairingsG, generatePairings, if_neg (by omega)]

theorem generatePairingsPre_slots (shuffled : List Player) (h2 : 2 ≤ shuffled.length) :
    (generatePairingsPre shuffled).map (fun m => (m.matchId, m.p1, m.p2))
      = (generatePairings shuffled).map (fun m => (m.matchId, m.p1, m.p2)) := by
  rw [generatePairingsPre, if_neg (by omega), generatePairings, makePairings,
    List.map_map, List.map_map]
  rfl

/-- Claim C3: for a player list of length `n ≥ 2`, `generatePairings`
(any shuffle outcome) returns exactly `ceil2(n)/2` matches, where
`ceil2(n) = nextPowerOfTwo n` is the smallest power of two `≥ n`; every
input contestant occupies exactly one slot of the round, exactly
`ceil2(n) - n` slots hold the `'BYE'` sentinel, and `matchId` numbering is
sequential starting at 1.  The guarded variant (`part_001` second file)
produces the identical round, and the pre-resolving variant (`part_001`
first file) produces the same matchIds and slots. -/
theorem generatePairings_round_shape
    (players shuffled : List Player)
    (hperm : List.Perm shuffled players)
    (h2 : 2 ≤ players.length)
    (hnodup : (players.map Player.username).Nodup)
    (hbye : ∀ p ∈ players, p.username ≠ "BYE") :
    (generatePairings shuffled).length = nextPowerOfTwo players.length / 2
    ∧ players.length ≤ nextPowerOfTwo players.length
    ∧ (∃ k, nextPowerOfTwo players.length = 2 ^ k)
    ∧ (∀ j, players.length ≤ 2 ^ j → nextPowerOfTwo players.length ≤ 2 ^ j)
    ∧ (∀ p ∈ players, (allSlots (generatePairings shuffled)).count p.username = 1)
    ∧ (allSlots (generatePairings shuffled)).count "BYE"
        = nextPowerOfTwo players.length - players.length
    ∧ (generatePairings shuffled).map Match.matchId
        = (List.range ((generatePairings shuffled).length)).map (fun i => i + 1)
    ∧ generatePairingsG shuffled = generatePairings shuffled
    ∧ (generatePairingsPre shuffled).map (fun m => (m.matchId, m.p1, m.p2))
        = (generatePairings shuffled).map (fun m => (m.matchId, m.p1, m.p2)) := by
  have hlen : shuffled.length = players.length := hperm.length_eq
  have h2' : 2 ≤ shuffled.length := by omega
  refine ⟨?_, ?_, ?_, ?_, ?_, ?_, ?_, ?_, ?_⟩
  · rw [length_generatePairings shuffled h2', hlen]
  · exact le_nextPowerOfTwo _
  · exact ⟨Nat.clog 2 players.length, nextPowerOfTwo_eq_pow_clog _⟩
  · exact fun j hj => nextPowerOfTwo_min _ j hj
  · intro p hp
    rw [count_allSlots_generatePairings shuffled p.username h2',
      if_neg (hbye p hp), (hperm.map Player.username).count_eq]
    have hmem : p.username ∈ players.map Player.username :=
      List.mem_map_of_mem Player.username hp
    simp [List.count_eq_one_of_mem hnodup hmem]
  · rw [count_allSlots_generatePairings shuffled "BYE" h2', if_pos rfl,
      (hperm.map Player.username).count_eq, hlen]
    have hnb : "BYE" ∉ players.map Player.username := by
      intro hmem
      obtain ⟨p, hp, hu⟩ := List.mem_map.1 hmem
      exact hbye p hp hu
    rw [List.count_eq_zero.2 hnb]
    omega
  · exact matchIds_generatePairings shuffled
  · exact generatePairingsG_eq shuffled h2'
  · exact generatePairingsPre_slots shuffled h2'

/-- Concrete roster for witnesses: three distinct players. -/
def wPlayers : List Player :=
  [{ id := "1", username := "A" }, { id := "2", username := "B" },
   { id := "3", username := "C" }]

/-- Witness for Claim C3 at the concrete roster `[A, B, C]` (identity
shuffle): all hypotheses hold and the round shape follows. -/
theorem generatePairings_round_shape_witness :
    (List.Perm wPlayers wPlayers
      ∧ 2 ≤ wPlayers.length
      ∧ (wPlayers.map Player.username).Nodup
      ∧ (∀ p ∈ wPlayers, p.username ≠ "BYE"))
    ∧ ((generatePairings wPlayers).length = nextPowerOfTwo wPlayers.length / 2
      ∧ wPlayers.length ≤ nextPowerOfTwo wPlayers.length
      ∧ (∃ k, nextPowerOfTwo wPlayers.length = 2 ^ k)
      ∧ (∀ j, wPlayers.length ≤ 2 ^ j → nextPowerOfTwo wPlayers.length ≤ 2 ^ j)
      ∧ (∀ p ∈ wPlayers, (allSlots (generatePairings wPlayers)).count p.username = 1)
      ∧ (allSlots (generatePairings wPlayers)).count "BYE"
          = nextPowerOfTwo wPlayers.length - wPlayers.length
      ∧ (generatePairings wPlayers).map Match.matchId
          = (List.range ((generatePairings wPlayers).length)).map (fun i => i + 1)
      ∧ generatePairingsG wPlayers = generatePairings wPlayers
      ∧ (generatePairingsPre wPlayers).map (fun m => (m.matchId, m.p1, m.p2))
          = (generatePairings wPlayers).map (fun m => (m.matchId, m.p1, m.p2))) :=
  ⟨⟨List.Perm.refl _, by decide, by decide, by decide⟩,
    generatePairings_round_shape wPlayers wPlayers (List.Perm.refl _)
      (by decide) (by decide) (by decide)⟩

/- ### Tournament state and the event handlers -/

/-- The fields of the global `tournamentState` that the core reads or
writes (`details` is opaque to the core and kept as a plain string). -/
structure TournamentState where
  isActive : Bool
  channelId : Option String
  messageId : Option String
  participants : List Player
  details : String
  bracket : List Match
deriving DecidableEq, Repr

/-- Externally visible actions of the reaction handler. -/
inductive Effect where
  | log (msg : String)
  | editPost
deriving DecidableEq, Repr

/-- `updateTournamentPost` of `index.js` / `part_000`: returns early
without a message to edit; otherwise generates the bracket when it is
still empty and more than one participant has joined. -/
def updateTournamentPost (shuffle : List Player → List Player)
    (s : TournamentState) : TournamentState :=
  if s.messageId = none ∨ s.channelId = none then s
  else if s.bracket.length = 0 ∧ 1 < s.participants.length then
    { s with bracket := generatePairings (shuffle s.participants) }
  else s

/-- `updateTournamentPost` of the first `part_001` variant: additionally
requires `isActive` and uses the pre-resolving generator. -/
def updateTournamentPostV1 (shuffle : List Player → List Player)
    (s : TournamentState) : TournamentState :=
  if s.messageId = none ∨ s.channelId = none then s
  else if s.bracket.length = 0 ∧ 1 < s.participants.length ∧ s.isActive then
    { s with bracket := generatePairingsPre (shuffle s.participants) }
  else s

/-- `updateTournamentPost` of the second `part_001` variant: requires
`isActive` and uses the guarded generator. -/
def updateTournamentPostB (shuffle : List Player → List Player)
    (s : TournamentState) : TournamentState :=
  if s.messageId = none ∨ s.channelId = none then s
  else if s.bracket.length = 0 ∧ 1 < s.participants.length ∧ s.isActive then
    { s with bracket := generatePairingsG (shuffle s.participants) }
  else s

/-- `messageReactionAdd` handler of `index.js` / `part_000`, after the
bot/message/emoji plumbing filter.  Returns the new state together with
the externally visible effects: when the tournament is inactive or the
id is already registered the event is dropped with no effect at all;
otherwise the participant is appended, a line is logged and the post is
edited. -/
def joinA (shuffle : List Player → List Player) (s : TournamentState)
    (u : Player) : TournamentState × List Effect :=
  if s.isActive = false then (s, [])
  else if s.participants.any (fun p => p.id = u.id) then (s, [])
  else
    (updateTournamentPost shuffle { s with participants := s.participants ++ [u] },
     [Effect.log (u.username ++ " joined the tournament."), Effect.editPost])

/-- `messageReactionAdd` handler of the second `part_001` variant: same
logic as `joinA` but with that file's `updateTournamentPost`. -/
def joinB (shuffle : List Player → List Player) (s : TournamentState)
    (u : Player) : TournamentState × List Effect :=
  if s.isActive = false then (s, [])
  else if s.participants.any (fun p => p.id = u.id) then (s, [])
  else
    (updateTournamentPostB shuffle { s with participants := s.participants ++ [u] },
     [Effect.log (u.username ++ " joined the tournament."), Effect.editPost])

/-- The in-handler generation step of the first `part_001` variant:
`if (participants.length >= 2 && bracket.length === 0) bracket = generatePairings(participants)`. -/
def joinV1Generate (shuffle : List Player → List Player)
    (s1 : TournamentState) : TournamentState :=
  if 2 ≤ s1.participants.length ∧ s1.bracket.length = 0 then
    { s1 with bracket := generatePairingsPre (shuffle s1.participants) }
  else s1

/-- `messageReactionAdd` handler of the first `part_001` variant: after a
new participant is pushed, the bracket is generated in the handler itself
as soon as `participants.length >= 2 && bracket.length === 0`, then the
post is updated. -/
def joinV1 (shuffle : List Player → List Player) (s : TournamentState)
    (u : Player) : TournamentState × List Effect :=
  if s.isActive = false then (s, [])
  else if s.participants.any (fun p => p.id = u.id) then (s, [])
  else
    (updateTournamentPostV1 shuffle
      (joinV1Generate shuffle { s with participants := s.participants ++ [u] }),
     [Effect.log (u.username ++ " joined the tournament."), Effect.editPost])

/-- The `for (const match of bracket)` search of the `/updatewinner`
handlers: set the winner of the first unresolved match whose `p1` or `p2`
equals the username and stop (`break`); `none` when no match is found. -/
def setFirstWinner : List Match → String → Option (List Match)
  | [], _ => none
  | m :: rest, u =>
    if m.winner = none ∧ (m.p1 = u ∨ m.p2 = u) then
      some ({ m with winner := some u } :: rest)
    else
      match setFirstWinner rest u with
      | some rest' => some (m :: rest')
      | none => none

/-- Synchronous outcome of `/updatewinner` in `index.js` / `part_000`. -/
inductive OutcomeA where
  | noTournament
  | noMatch
  | recorded
  | champion (name : String)
deriving DecidableEq, Repr

/-- Synchronous outcome of `/updatewinner` in the `part_001` variants. -/
inductive OutcomeB where
  | noTournament
  | notStarted
  | noMatch
  | recorded
  | champion (name : String)
  | nextRound (numMatches : Nat)
deriving DecidableEq, Repr

/-- `/updatewinner` handler of `index.js` (identical in `part_000`).
After recording a winner, if every match has a winner and the round has
more than one match, the winners found among the participants are re-paired;
if the regenerated round has exactly one match, `bracket[0].p1` is
immediately announced as tournament winner and the tournament is
deactivated. -/
def declareWinnerA (shuffle : List Player → List Player) (s : TournamentState)
    (u : String) : TournamentState × OutcomeA :=
  if s.isActive = false then (s, OutcomeA.noTournament)
  else
    match setFirstWinner s.bracket u with
    | none => (s, OutcomeA.noMatch)
    | some br =>
      let s1 : TournamentState := { s with bracket := br }
      if br.all (fun m => m.winner.isSome) ∧ 1 < br.length then
        let winners : List Player := br.filterMap
          (fun m => s1.participants.find? (fun p => m.winner = some p.username))
        let br2 := generatePairings (shuffle winners)
        let s2 : TournamentState := { s1 with bracket := br2 }
        if br2.length = 1 then
          (updateTournamentPost shuffle { s2 with isActive := false },
           OutcomeA.champion ((br2.headD { matchId := 0, p1 := "", p2 := "", winner := none }).p1))
        else (updateTournamentPost shuffle s2, OutcomeA.recorded)
      else (updateTournamentPost shuffle s1, OutcomeA.recorded)

/-- `/updatewinner` handler of the second `part_001` variant (admin check
omitted as plumbing).  When the round completes, the distinct winners
found among the participants either give the champion (a synthetic
`CHAMPION` match is stored and the tournament deactivated) or are
re-paired into the next round. -/
def declareWinnerB (shuffle : List Player → List Player) (s : TournamentState)
    (u : String) : TournamentState × OutcomeB :=
  if s.isActive = false then (s, OutcomeB.noTournament)
  else if s.participants.length < 2 ∨ s.bracket.length = 0 then
    (s, OutcomeB.notStarted)
  else
    match setFirstWinner s.bracket u with
    | none => (s, OutcomeB.noMatch)
    | some br =>
      let s1 : TournamentState := { s with bracket := br }
      if br.all (fun m => m.winner.isSome) then
        let roundWinners : List Player := br.filterMap
          (fun m => s1.participants.find? (fun p => m.winner = some p.username))
        if roundWinners.length = 1 then
          let champ := (roundWinners.headD BYEplayer).username
          (updateTournamentPostB shuffle
            { s1 with
              bracket := [{ matchId := 1, p1 := champ, p2 := "CHAMPION", winner := some champ }]
              isActive := false },
           OutcomeB.champion champ)
        else if 1 < roundWinners.length then
          let br2 := generatePairingsG (shuffle roundWinners)
          (updateTournamentPostB shuffle { s1 with bracket := br2 },
           OutcomeB.nextRound br2.length)
        else (updateTournamentPostB shuffle s1, OutcomeB.recorded)
      else (updateTournamentPostB shuffle s1, OutcomeB.recorded)

/-- `/updatewinner` handler of the first `part_001` variant (admin check
omitted as plumbing; its combined guard is one reply).  Round winners are
the winner strings different from `'BYE'`; for the next round they are
mapped back to participants by username with `'UNKNOWN'` ids as fallback. -/
def declareWinnerBp (shuffle : List Player → List Player) (s : TournamentState)
    (u : String) : TournamentState × OutcomeB :=
  if s.isActive = false ∨ s.participants.length < 2 ∨ s.bracket.length = 0 then
    (s, OutcomeB.notStarted)
  else
    match setFirstWinner s.bracket u with
    | none => (s, OutcomeB.noMatch)
    | some br =>
      let s1 : TournamentState := { s with bracket := br }
      if br.all (fun m => m.winner.isSome) then
        let roundWinners : List String :=
          (br.filterMap (fun m => m.winner)).filter (fun w => w ≠ "BYE")
        if roundWinners.length = 1 then
          let finalW := roundWinners.headD ""
          (updateTournamentPostV1 shuffle
            { s1 with
              isActive := false
              bracket := [{ matchId := 1, p1 := finalW, p2 := "CHAMPION", winner := some finalW }] },
           OutcomeB.champion finalW)
        else if 1 < roundWinners.length then
          let nextPlayers : List Player := roundWinners.map (fun un =>
            { id := ((s1.participants.find? (fun p => p.username = un)).map Player.id).getD "UNKNOWN"
              username := un })
          let br2 := generatePairingsPre (shuffle nextPlayers)
          (updateTournamentPostV1 shuffle { s1 with bracket := br2 },
           OutcomeB.nextRound br2.length)
        else (updateTournamentPostV1 shuffle s1, OutcomeB.recorded)
      else (updateTournamentPostV1 shuffle s1, OutcomeB.recorded)

/- ### Frame lemmas for the post-update helpers -/

theorem updateTournamentPost_frame (shuffle : List Player → List Player)
    (s : TournamentState) :
    (updateTournamentPost shuffle s).isActive = s.isActive
    ∧ (updateTournamentPost shuffle s).participants = s.participants := by
  unfold updateTournamentPost
  split
  · exact ⟨rfl, rfl⟩
  · split
    · exact ⟨rfl, rfl⟩
    · exact ⟨rfl, rfl⟩

theorem updateTournamentPostV1_frame (shuffle : List Player → List Player)
    (s : TournamentState) :
    (updateTournamentPostV1 shuffle s).isActive = s.isActive
    ∧ (updateTournamentPostV1 shuffle s).participants = s.participants := by
  unfold updateTournamentPostV1
  split
  · exact ⟨rfl, rfl⟩
  · split
    · exact ⟨rfl, rfl⟩
    · exact ⟨rfl, rfl⟩

theorem updateTournamentPostB_frame (shuffle : List Player → List Player)
    (s : TournamentState) :
    (updateTournamentPostB shuffle s).isActive = s.isActive
    ∧ (updateTournamentPostB shuffle s).participants = s.participants := by
  unfold updateTournamentPostB
  split
  · exact ⟨rfl, rfl⟩
  · split
    · exact ⟨rfl, rfl⟩
    · exact ⟨rfl, rfl⟩

theorem updateTournamentPost_eq_of_bracket_ne (shuffle : List Player → List Player)
    (s : TournamentState) (h : s.bracket ≠ []) :
    updateTournamentPost shuffle s = s := by
  have hng : ¬ (s.bracket.length = 0 ∧ 1 < s.participants.length) := by
    intro hc
    exact h (List.length_eq_zero.1 hc.1)
  unfold updateTournamentPost
  by_cases hmc : s.messageId = none ∨ s.channelId = none
  · rw [if_pos hmc]
  · rw [if_neg hmc, if_neg hng]

theorem updateTournamentPostV1_eq_of_bracket_ne (shuffle : List Player → List Player)
    (s : TournamentState) (h : s.bracket ≠ []) :
    updateTournamentPostV1 shuffle s = s := by
  have hng : ¬ (s.bracket.length = 0 ∧ 1 < s.participants.length ∧ s.isActive) := by
    intro hc
    exact h (List.length_eq_zero.1 hc.1)
  unfold updateTournamentPostV1
  by_cases hmc : s.messageId = none ∨ s.channelId = none
  · rw [if_pos hmc]
  · rw [if_neg hmc, if_neg hng]

theorem updateTournamentPostB_eq_of_bracket_ne (shuffle : List Player → List Player)
    (s : TournamentState) (h : s.bracket ≠ []) :
    updateTournamentPostB shuffle s = s := by
  have hng : ¬ (s.bracket.length = 0 ∧ 1 < s.participants.length ∧ s.isActive) := by
    intro hc
    exact h (List.length_eq_zero.1 hc.1)
  unfold updateTournamentPostB
  by_cases hmc : s.messageId = none ∨ s.channelId = none
  · rw [if_pos hmc]
  · rw [if_neg hmc, if_neg hng]

/- ### Characterisation of the match search -/

theorem setFirstWinner_eq_none_iff (u : String) :
    ∀ br : List Match,
      (setFirstWinner br u = none
        ↔ ∀ m ∈ br, ¬(m.winner = none ∧ (m.p1 = u ∨ m.p2 = u)))
  | [] => by simp [setFirstWinner]
  | m :: rest => by
    have ih := setFirstWinner_eq_none_iff u rest
    by_cases h : m.winner = none ∧ (m.p1 = u ∨ m.p2 = u)
    · simp only [setFirstWinner, if_pos h]
      constructor
      · intro hc
        cases hc
      · intro hall
        exact absurd h (hall m (List.mem_cons_self m rest))
    · simp only [setFirstWinner, if_neg h]
      cases hres : setFirstWinner rest u with
      | some rest' =>
        constructor
        · intro hc
          exact absurd hc (by simp)
        · intro hall
          have h0 : setFirstWinner rest u = none :=
            ih.2 (fun m' hm' => hall m' (List.mem_cons_of_mem _ hm'))
          rw [h0] at hres
          cases hres
      | none =>
        constructor
        · intro _ m' hm'
          rcases List.mem_cons.1 hm' with hm' | hm'
          · subst hm'; exact h
          · exact (ih.1 hres) m' hm'
        · intro _; rfl

theorem setFirstWinner_some_spec (u : String) :
    ∀ (br br' : List Match), setFirstWinner br u = some br' →
      ∃ i, ∃ hi : i < br.length,
        (br.get ⟨i, hi⟩).winner = none
        ∧ ((br.get ⟨i, hi⟩).p1 = u ∨ (br.get ⟨i, hi⟩).p2 = u)
        ∧ (∀ j, ∀ hj : j < br.length, j < i →
            ¬((br.get ⟨j, hj⟩).winner = none
              ∧ ((br.get ⟨j, hj⟩).p1 = u ∨ (br.get ⟨j, hj⟩).p2 = u)))
        ∧ br' = br.set i { br.get ⟨i, hi⟩ with winner := some u }
  | [], _, hset => by cases hset
  | m :: rest, br', hset => by
    by_cases h : m.winner = none ∧ (m.p1 = u ∨ m.p2 = u)
    · simp only [setFirstWinner, if_pos h] at hset
      refine ⟨0, by simp, h.1, h.2, ?_, ?_⟩
      · intro j hj hj0
        omega
      · cases hset
        rfl
    · simp only [setFirstWinner, if_neg h] at hset
      cases hres : setFirstWinner rest u with
      | none => rw [hres] at hset; cases hset
      | some rest' =>
        rw [hres] at hset
        cases hset
        obtain ⟨i, hi, hw, hp, hleast, hset'⟩ :=
          setFirstWinner_some_spec u rest rest' hres
        refine ⟨i + 1, by simpa using Nat.succ_lt_succ hi, hw, hp, ?_, ?_⟩
        · intro j hj hji
          cases j with
          | zero => exact h
          | succ j' =>
            exact hleast j' (by simpa using Nat.lt_of_succ_lt_succ hj)
              (Nat.lt_of_succ_lt_succ hji)
        · rw [hset']
          rfl

theorem setFirstWinner_length (u : String) (br br' : List Match)
    (h : setFirstWinner br u = some br') : br'.length = br.length := by
  obtain ⟨i, hi, _, _, _, hset⟩ := setFirstWinner_some_spec u br br' h
  rw [hset, List.length_set]

/- ### Claim C5: rejected winner declarations change nothing -/

/-- Claim C5: if the tournament is in progress and player `u` occupies no
slot of any unresolved match of the current round, then `/updatewinner u`
reports the no-active-match error and returns the tournament state
byte-for-byte unchanged, in all three handler variants. -/
theorem declareWinner_no_active_match (shuffle : List Player → List Player)
    (s : TournamentState) (u : String)
    (hact : s.isActive = true)
    (hpart : 2 ≤ s.participants.length)
    (hbr : s.bracket.length ≠ 0)
    (hno : ∀ m ∈ s.bracket, m.winner = none → ¬(m.p1 = u ∨ m.p2 = u)) :
    declareWinnerA shuffle s u = (s, OutcomeA.noMatch)
    ∧ declareWinnerB shuffle s u = (s, OutcomeB.noMatch)
    ∧ declareWinnerBp shuffle s u = (s, OutcomeB.noMatch) := by
  have hnone : setFirstWinner s.bracket u = none :=
    (setFirstWinner_eq_none_iff u s.bracket).2 (fun m hm hc => hno m hm hc.1 hc.2)
  have hnf : ¬ (s.isActive = false) := by
    intro hc
    rw [hact] at hc
    cases hc
  have hguard : ¬ (s.participants.length < 2 ∨ s.bracket.length = 0) := by omega
  have hguardp : ¬ (s.isActive = false ∨ s.participants.length < 2
      ∨ s.bracket.length = 0) := by
    intro hc
    rcases hc with hc | hc | hc
    · exact hnf hc
    · omega
    · omega
  refine ⟨?_, ?_, ?_⟩
  · unfold declareWinnerA
    rw [if_neg hnf, hnone]
  · unfold declareWinnerB
    rw [if_neg hnf, if_neg hguard, hnone]
  · unfold declareWinnerBp
    rw [if_neg hguardp, hnone]

/-- Concrete state for the C5 witness: `D` appears only in an already
resolved match. -/
def wStateC5 : TournamentState :=
  { isActive := true, channelId := some "c", messageId := some "m"
    participants := [{ id := "1", username := "A" }, { id := "2", username := "B" },
      { id := "3", username := "C" }, { id := "4", username := "D" }]
    details := "t"
    bracket := [{ matchId := 1, p1 := "A", p2 := "B", winner := none },
      { matchId := 2, p1 := "C", p2 := "D", winner := some "C" }] }

/-- Witness for Claim C5 at a concrete state: `D` only occupies a
resolved match, so all three handlers report the error and leave the
state untouched. -/
theorem declareWinner_no_active_match_witness :
    (wStateC5.isActive = true
      ∧ 2 ≤ wStateC5.participants.length
      ∧ wStateC5.bracket.length ≠ 0
      ∧ (∀ m ∈ wStateC5.bracket, m.winner = none → ¬(m.p1 = "D" ∨ m.p2 = "D")))
    ∧ (declareWinnerA (fun l => l) wStateC5 "D" = (wStateC5, OutcomeA.noMatch)
      ∧ declareWinnerB (fun l => l) wStateC5 "D" = (wStateC5, OutcomeB.noMatch)
      ∧ declareWinnerBp (fun l => l) wStateC5 "D" = (wStateC5, OutcomeB.noMatch)) :=
  ⟨⟨rfl, by decide, by decide, by decide⟩,
    declareWinner_no_active_match (fun l => l) wStateC5 "D" rfl (by decide)
      (by decide) (by decide)⟩

/- ### Claim C6: joining twice with the same id is a no-op -/

theorem joinA_inactive (shuffle : List Player → List Player)
    (s : TournamentState) (u : Player) (h : s.isActive = false) :
    joinA shuffle s u = (s, []) := by
  unfold joinA
  rw [if_pos h]

theorem joinA_dup (shuffle : List Player → List Player)
    (s : TournamentState) (u : Player) (h1 : ¬ s.isActive = false)
    (h2 : s.participants.any (fun p => p.id = u.id) = true) :
    joinA shuffle s u = (s, []) := by
  unfold joinA
  rw [if_neg h1, if_pos h2]

theorem joinA_new (shuffle : List Player → List Player)
    (s : TournamentState) (u : Player) (h1 : ¬ s.isActive = false)
    (h2 : ¬ s.participants.any (fun p => p.id = u.id) = true) :
    (joinA shuffle s u).1.participants = s.participants ++ [u]
    ∧ (joinA shuffle s u).1.isActive = s.isActive := by
  unfold joinA
  rw [if_neg h1, if_neg h2]
  exact ⟨(updateTournamentPost_frame _ _).2, (updateTournamentPost_frame _ _).1⟩

theorem joinB_inactive (shuffle : List Player → List Player)
    (s : TournamentState) (u : Player) (h : s.isActive = false) :
    joinB shuffle s u = (s, []) := by
  unfold joinB
  rw [if_pos h]

theorem joinB_dup (shuffle : List Player → List Player)
    (s : TournamentState) (u : Player) (h1 : ¬ s.isActive = false)
    (h2 : s.participants.any (fun p => p.id = u.id) = true) :
    joinB shuffle s u = (s, []) := by
  unfold joinB
  rw [if_neg h1, if_pos h2]

theorem joinB_new (shuffle : List Player → List Player)
    (s : TournamentState) (u : Player) (h1 : ¬ s.isActive = false)
    (h2 : ¬ s.participants.any (fun p => p.id = u.id) = true) :
    (joinB shuffle s u).1.participants = s.participants ++ [u]
    ∧ (joinB shuffle s u).1.isActive = s.isActive := by
  unfold joinB
  rw [if_neg h1, if_neg h2]
  exact ⟨(updateTournamentPostB_frame _ _).2, (updateTournamentPostB_frame _ _).1⟩

theorem joinV1Generate_frame (shuffle : List Player → List Player)
    (s1 : TournamentState) :
    (joinV1Generate shuffle s1).participants = s1.participants
    ∧ (joinV1Generate shuffle s1).isActive = s1.isActive := by
  unfold joinV1Generate
  split
  · exact ⟨rfl, rfl⟩
  · exact ⟨rfl, rfl⟩

theorem joinV1_inactive (shuffle : List Player → List Player)
    (s : TournamentState) (u : Player) (h : s.isActive = false) :
    joinV1 shuffle s u = (s, []) := by
  unfold joinV1
  rw [if_pos h]

theorem joinV1_dup (shuffle : List Player → List Player)
    (s : TournamentState) (u : Player) (h1 : ¬ s.isActive = false)
    (h2 : s.participants.any (fun p => p.id = u.id) = true) :
    joinV1 shuffle s u = (s, []) := by
  unfold joinV1
  rw [if_neg h1, if_pos h2]

theorem joinV1_new (shuffle : List Player → List Player)
    (s : TournamentState) (u : Player) (h1 : ¬ s.isActive = false)
    (h2 : ¬ s.participants.any (fun p => p.id = u.id) = true) :
    (joinV1 shuffle s u).1.participants = s.participants ++ [u]
    ∧ (joinV1 shuffle s u).1.isActive = s.isActive := by
  unfold joinV1
  rw [if_neg h1, if_neg h2]
  constructor
  · rw [(updateTournamentPostV1_frame _ _).2, (joinV1Generate_frame _ _).1]
  · rw [(updateTournamentPostV1_frame _ _).1, (joinV1Generate_frame _ _).2]

/-- The second application of any of the three join handlers with the
same id is the identity on the state (shared skeleton for Claim C6). -/
theorem join_idem_of (J : TournamentState → Player → TournamentState × List Effect)
    (u : Player)
    (hinact : ∀ s : TournamentState, s.isActive = false → J s u = (s, []))
    (hdup : ∀ s : TournamentState, ¬ s.isActive = false →
      s.participants.any (fun p => p.id = u.id) = true → J s u = (s, []))
    (hnew : ∀ s : TournamentState, ¬ s.isActive = false →
      ¬ s.participants.any (fun p => p.id = u.id) = true →
      (J s u).1.participants = s.participants ++ [u]
      ∧ (J s u).1.isActive = s.isActive)
    (s : TournamentState) :
    (J (J s u).1 u).1.participants = (J s u).1.participants := by
  by_cases hact : s.isActive = false
  · have h := hinact s hact
    rw [h]
    show (J s u).1.participants = s.participants
    rw [h]
  · by_cases hdupc : s.participants.any (fun p => p.id = u.id) = true
    · have h := hdup s hact hdupc
      rw [h]
      show (J s u).1.participants = s.participants
      rw [h]
    · have hnewc := hnew s hact hdupc
      have hact1 : ¬ (J s u).1.isActive = false := by
        rw [hnewc.2]
        exact hact
      have hany : (J s u).1.participants.any (fun p => p.id = u.id) = true := by
        rw [hnewc.1, List.any_append]
        simp
      rw [hdup (J s u).1 hact1 hany]

/-- Claim C6: joining twice with the same `id` leaves roster size and
order after the second call identical to the roster after the first call
(second join is a no-op), in every handler variant. -/
theorem join_idempotent (shuffle : List Player → List Player)
    (s : TournamentState) (u : Player) :
    (joinA shuffle (joinA shuffle s u).1 u).1.participants
      = (joinA shuffle s u).1.participants
    ∧ (joinB shuffle (joinB shuffle s u).1 u).1.participants
      = (joinB shuffle s u).1.participants
    ∧ (joinV1 shuffle (joinV1 shuffle s u).1 u).1.participants
      = (joinV1 shuffle s u).1.participants :=
  ⟨join_idem_of (joinA shuffle) u (fun s h => joinA_inactive shuffle s u h)
      (fun s h1 h2 => joinA_dup shuffle s u h1 h2)
      (fun s h1 h2 => joinA_new shuffle s u h1 h2) s,
    join_idem_of (joinB shuffle) u (fun s h => joinB_inactive shuffle s u h)
      (fun s h1 h2 => joinB_dup shuffle s u h1 h2)
      (fun s h1 h2 => joinB_new shuffle s u h1 h2) s,
    join_idem_of (joinV1 shuffle) u (fun s h => joinV1_inactive shuffle s u h)
      (fun s h1 h2 => joinV1_dup shuffle s u h1 h2)
      (fun s h1 h2 => joinV1_new shuffle s u h1 h2) s⟩

/- ### Claim C9: joining after the bracket exists never reaches the bracket -/

/-- Claim C9: a join delivered while a (nonempty) current round already
exists appends the new participant to the roster but leaves the round
unchanged, so the participant occupies no slot of the round in progress:
roster and bracket diverge. -/
theorem join_after_bracket_frame (shuffle : List Player → List Player)
    (s : TournamentState) (u : Player)
    (hact : s.isActive = true)
    (hbr : s.bracket ≠ [])
    (hnew : s.participants.any (fun p => p.id = u.id) = false) :
    (joinA shuffle s u).1.bracket = s.bracket
    ∧ (joinA shuffle s u).1.participants = s.participants ++ [u]
    ∧ (joinB shuffle s u).1.bracket = s.bracket
    ∧ (joinB shuffle s u).1.participants = s.participants ++ [u]
    ∧ (joinV1 shuffle s u).1.bracket = s.bracket
    ∧ (joinV1 shuffle s u).1.participants = s.participants ++ [u]
    ∧ (u.username ∉ allSlots s.bracket →
        u.username ∉ allSlots (joinA shuffle s u).1.bracket
        ∧ u.username ∉ allSlots (joinV1 shuffle s u).1.bracket) := by
  have hnf : ¬ (s.isActive = false) := by
    intro hc
    rw [hact] at hc
    cases hc
  have hnd : ¬ s.participants.any (fun p => p.id = u.id) = true := by
    rw [hnew]
    exact Bool.false_ne_true
  have hbr' : (({ s with participants := s.participants ++ [u] }
      : TournamentState)).bracket ≠ [] := hbr
  have hA : (joinA shuffle s u).1 = { s with participants := s.participants ++ [u] } := by
    unfold joinA
    rw [if_neg hnf, if_neg hnd]
    exact updateTournamentPost_eq_of_bracket_ne shuffle _ hbr'
  have hgen : joinV1Generate shuffle { s with participants := s.participants ++ [u] }
      = { s with participants := s.participants ++ [u] } := by
    unfold joinV1Generate
    rw [if_neg ?hng]
    case hng =>
      intro hc
      exact hbr' (List.length_eq_zero.1 hc.2)
  have hV1 : (joinV1 shuffle s u).1 = { s with participants := s.participants ++ [u] } := by
    unfold joinV1
    rw [if_neg hnf, if_neg hnd]
    show updateTournamentPostV1 shuffle (joinV1Generate shuffle _) = _
    rw [hgen]
    exact updateTournamentPostV1_eq_of_bracket_ne shuffle _ hbr'
  have hB : (joinB shuffle s u).1 = { s with participants := s.participants ++ [u] } := by
    unfold joinB
    rw [if_neg hnf, if_neg hnd]
    exact updateTournamentPostB_eq_of_bracket_ne shuffle _ hbr'
  refine ⟨by rw [hA], by rw [hA], by rw [hB], by rw [hB], by rw [hV1], by rw [hV1], ?_⟩
  intro hnot
  rw [hA, hV1]
  exact ⟨hnot, hnot⟩

/-- Concrete state for the C9 witness: two players with a generated
round. -/
def wStateC9 : TournamentState :=
  { isActive := true, channelId := some "c", messageId := some "m"
    participants := [{ id := "1", username := "A" }, { id := "2", username := "B" }]
    details := "t"
    bracket := [{ matchId := 1, p1 := "A", p2 := "B", winner := none }] }

/-- Witness for Claim C9: player `C` joins a 2-player tournament whose
round is already generated; the round is unchanged and `C` is appended to
the roster only. -/
theorem join_after_bracket_frame_witness :
    (wStateC9.isActive = true
      ∧ wStateC9.bracket ≠ []
      ∧ wStateC9.participants.any
          (fun p => p.id = ({ id := "3", username := "C" } : Player).id) = false)
    ∧ ((joinA (fun l => l) wStateC9 { id := "3", username := "C" }).1.bracket
          = wStateC9.bracket
      ∧ (joinA (fun l => l) wStateC9 { id := "3", username := "C" }).1.participants
          = wStateC9.participants ++ [{ id := "3", username := "C" }]
      ∧ (joinB (fun l => l) wStateC9 { id := "3", username := "C" }).1.bracket
          = wStateC9.bracket
      ∧ (joinB (fun l => l) wStateC9 { id := "3", username := "C" }).1.participants
          = wStateC9.participants ++ [{ id := "3", username := "C" }]
      ∧ (joinV1 (fun l => l) wStateC9 { id := "3", username := "C" }).1.bracket
          = wStateC9.bracket
      ∧ (joinV1 (fun l => l) wStateC9 { id := "3", username := "C" }).1.participants
          = wStateC9.participants ++ [{ id := "3", username := "C" }]
      ∧ (({ id := "3", username := "C" } : Player).username ∉ allSlots wStateC9.bracket →
          ({ id := "3", username := "C" } : Player).username
              ∉ allSlots (joinA (fun l => l) wStateC9 { id := "3", username := "C" }).1.bracket
          ∧ ({ id := "3", username := "C" } : Player).username
              ∉ allSlots (joinV1 (fun l => l) wStateC9 { id := "3", username := "C" }).1.bracket)) :=
  ⟨⟨rfl, by decide, by decide⟩,
    join_after_bracket_frame (fun l => l) wStateC9 { id := "3", username := "C" }
      rfl (by decide) (by decide)⟩

/- ### Claim C7: a non-null winner is one of the two slot occupants -/

/-- The spec invariant: `winner`, once non-null, equals `slotA` or
`slotB`. -/
def winnerInv (br : List Match) : Prop :=
  ∀ m ∈ br, m.winner = none ∨ m.winner = some m.p1 ∨ m.winner = some m.p2

instance winnerInvDecidable (br : List Match) : Decidable (winnerInv br) := by
  unfold winnerInv
  infer_instance

theorem winnerInv_generatePairings (l : List Player) :
    winnerInv (generatePairings l) := by
  intro m hm
  rw [generatePairings, makePairings] at hm
  obtain ⟨i, _, rfl⟩ := List.mem_map.1 hm
  left
  rfl

theorem winnerInv_generatePairingsG (l : List Player) :
    winnerInv (generatePairingsG l) := by
  intro m hm
  rw [generatePairingsG] at hm
  split at hm
  · cases hm
  · obtain ⟨i, _, rfl⟩ := List.mem_map.1 hm
    left
    rfl

theorem winnerInv_generatePairingsPre (l : List Player) :
    winnerInv (generatePairingsPre l) := by
  intro m hm
  rw [generatePairingsPre] at hm
  split at hm
  · cases hm
  · obtain ⟨i, _, rfl⟩ := List.mem_map.1 hm
    unfold pairOfPre
    dsimp only
    split
    · right
      right
      rfl
    · split
      · right
        left
        rfl
      · left
        rfl

theorem winnerInv_champion (c : String) :
    winnerInv [{ matchId := 1, p1 := c, p2 := "CHAMPION", winner := some c }] := by
  intro m hm
  rcases List.mem_singleton.1 hm with rfl
  right
  left
  rfl

theorem winnerInv_setFirstWinner (u : String) (br br' : List Match)
    (h : setFirstWinner br u = some br') (hinv : winnerInv br) :
    winnerInv br' := by
  obtain ⟨i, hi, hw, hp, _, hset⟩ := setFirstWinner_some_spec u br br' h
  intro m hm
  rw [hset] at hm
  rcases List.mem_or_eq_of_mem_set hm with hm' | hm'
  · exact hinv m hm'
  · subst hm'
    rcases hp with hp | hp
    · right
      left
      show some u = some (br.get ⟨i, hi⟩).p1
      rw [hp]
    · right
      right
      show some u = some (br.get ⟨i, hi⟩).p2
      rw [hp]

theorem winnerInv_updateTournamentPost (shuffle : List Player → List Player)
    (s : TournamentState) (h : winnerInv s.bracket) :
    winnerInv (updateTournamentPost shuffle s).bracket := by
  unfold updateTournamentPost
  split
  · exact h
  · split
    · exact winnerInv_generatePairings _
    · exact h

theorem winnerInv_updateTournamentPostV1 (shuffle : List Player → List Player)
    (s : TournamentState) (h : winnerInv s.bracket) :
    winnerInv (updateTournamentPostV1 shuffle s).bracket := by
  unfold updateTournamentPostV1
  split
  · exact h
  · split
    · exact winnerInv_generatePairingsPre _
    · exact h

theorem winnerInv_updateTournamentPostB (shuffle : List Player → List Player)
    (s : TournamentState) (h : winnerInv s.bracket) :
    winnerInv (updateTournamentPostB shuffle s).bracket := by
  unfold updateTournamentPostB
  split
  · exact h
  · split
    · exact winnerInv_generatePairingsG _
    · exact h

theorem winnerInv_joinA (shuffle : List Player → List Player)
    (s : TournamentState) (u : Player) (h : winnerInv s.bracket) :
    winnerInv (joinA shuffle s u).1.bracket := by
  unfold joinA
  split
  · exact h
  · split
    · exact h
    · exact winnerInv_updateTournamentPost shuffle _ h

theorem winnerInv_joinB (shuffle : List Player → List Player)
    (s : TournamentState) (u : Player) (h : winnerInv s.bracket) :
    winnerInv (joinB shuffle s u).1.bracket := by
  unfold joinB
  split
  · exact h
  · split
    · exact h
    · exact winnerInv_updateTournamentPostB shuffle _ h

theorem winnerInv_joinV1Generate (shuffle : List Player → List Player)
    (s1 : TournamentState) (h : winnerInv s1.bracket) :
    winnerInv (joinV1Generate shuffle s1).bracket := by
  unfold joinV1Generate
  split
  · exact winnerInv_generatePairingsPre _
  · exact h

theorem winnerInv_joinV1 (shuffle : List Player → List Player)
    (s : TournamentState) (u : Player) (h : winnerInv s.bracket) :
    winnerInv (joinV1 shuffle s u).1.bracket := by
  unfold joinV1
  split
  · exact h
  · split
    · exact h
    · exact winnerInv_updateTournamentPostV1 shuffle _
        (winnerInv_joinV1Generate shuffle _ h)

theorem winnerInv_declareWinnerA (shuffle : List Player → List Player)
    (s : TournamentState) (u : String) (h : winnerInv s.bracket) :
    winnerInv (declareWinnerA shuffle s u).1.bracket := by
  by_cases hact : s.isActive = false
  · simp only [declareWinnerA, if_pos hact]
    exact h
  · cases hset : setFirstWinner s.bracket u with
    | none =>
      simp only [declareWinnerA, if_neg hact, hset]
      exact h
    | some br =>
      have hbr : winnerInv br := winnerInv_setFirstWinner u s.bracket br hset h
      simp only [declareWinnerA, if_neg hact, hset]
      split
      · split
        · exact winnerInv_updateTournamentPost shuffle _ (winnerInv_generatePairings _)
        · exact winnerInv_updateTournamentPost shuffle _ (winnerInv_generatePairings _)
      · exact winnerInv_updateTournamentPost shuffle _ hbr

theorem winnerInv_declareWinnerB (shuffle : List Player → List Player)
    (s : TournamentState) (u : String) (h : winnerInv s.bracket) :
    winnerInv (declareWinnerB shuffle s u).1.bracket := by
  by_cases hact : s.isActive = false
  · simp only [declareWinnerB, if_pos hact]
    exact h
  · by_cases hguard : s.participants.length < 2 ∨ s.bracket.length = 0
    · simp only [declareWinnerB, if_neg hact, if_pos hguard]
      exact h
    · cases hset : setFirstWinner s.bracket u with
      | none =>
        simp only [declareWinnerB, if_neg hact, if_neg hguard, hset]
        exact h
      | some br =>
        have hbr : winnerInv br := winnerInv_setFirstWinner u s.bracket br hset h
        simp only [declareWinnerB, if_neg hact, if_neg hguard, hset]
        split
        · split
          · exact winnerInv_updateTournamentPostB shuffle _ (winnerInv_champion _)
          · split
            · exact winnerInv_updateTournamentPostB shuffle _ (winnerInv_generatePairingsG _)
            · exact winnerInv_updateTournamentPostB shuffle _ hbr
        · exact winnerInv_updateTournamentPostB shuffle _ hbr

theorem winnerInv_declareWinnerBp (shuffle : List Player → List Player)
    (s : TournamentState) (u : String) (h : winnerInv s.bracket) :
    winnerInv (declareWinnerBp shuffle s u).1.bracket := by
  by_cases hguard : s.isActive = false ∨ s.participants.length < 2
      ∨ s.bracket.length = 0
  · simp only [declareWinnerBp, if_pos hguard]
    exact h
  · cases hset : setFirstWinner s.bracket u with
    | none =>
      simp only [declareWinnerBp, if_neg hguard, hset]
      exact h
    | some br =>
      have hbr : winnerInv br := winnerInv_setFirstWinner u s.bracket br hset h
      simp only [declareWinnerBp, if_neg hguard, hset]
      split
      · split
        · exact winnerInv_updateTournamentPostV1 shuffle _ (winnerInv_champion _)
        · split
          · exact winnerInv_updateTournamentPostV1 shuffle _ (winnerInv_generatePairingsPre _)
          · exact winnerInv_updateTournamentPostV1 shuffle _ hbr
      · exact winnerInv_updateTournamentPostV1 shuffle _ hbr

/-- Claim C7: if every match of the current round has its (possibly null)
winner equal to one of its slots, then the same holds after any join,
any winner declaration (in all handler variants), and for any freshly
generated round - every operation preserves the invariant. -/
theorem winner_slot_invariant (shuffle : List Player → List Player)
    (s : TournamentState) (u : Player) (w : String)
    (hinv : winnerInv s.bracket) :
    winnerInv (joinA shuffle s u).1.bracket
    ∧ winnerInv (joinB shuffle s u).1.bracket
    ∧ winnerInv (joinV1 shuffle s u).1.bracket
    ∧ winnerInv (declareWinnerA shuffle s w).1.bracket
    ∧ winnerInv (declareWinnerB shuffle s w).1.bracket
    ∧ winnerInv (declareWinnerBp shuffle s w).1.bracket
    ∧ winnerInv (generatePairings (shuffle s.participants))
    ∧ winnerInv (generatePairingsG (shuffle s.participants))
    ∧ winnerInv (generatePairingsPre (shuffle s.participants)) :=
  ⟨winnerInv_joinA shuffle s u hinv,
    winnerInv_joinB shuffle s u hinv,
    winnerInv_joinV1 shuffle s u hinv,
    winnerInv_declareWinnerA shuffle s w hinv,
    winnerInv_declareWinnerB shuffle s w hinv,
    winnerInv_declareWinnerBp shuffle s w hinv,
    winnerInv_generatePairings _,
    winnerInv_generatePairingsG _,
    winnerInv_generatePairingsPre _⟩

/-- Witness for Claim C7 at the concrete state `wStateC5` (whose round
has one resolved and one pending match). -/
theorem winner_slot_invariant_witness :
    winnerInv wStateC5.bracket
    ∧ (winnerInv (joinA (fun l => l) wStateC5 { id := "9", username := "Z" }).1.bracket
      ∧ winnerInv (joinB (fun l => l) wStateC5 { id := "9", username := "Z" }).1.bracket
      ∧ winnerInv (joinV1 (fun l => l) wStateC5 { id := "9", username := "Z" }).1.bracket
      ∧ winnerInv (declareWinnerA (fun l => l) wStateC5 "A").1.bracket
      ∧ winnerInv (declareWinnerB (fun l => l) wStateC5 "A").1.bracket
      ∧ winnerInv (declareWinnerBp (fun l => l) wStateC5 "A").1.bracket
      ∧ winnerInv (generatePairings ((fun l => l) wStateC5.participants))
      ∧ winnerInv (generatePairingsG ((fun l => l) wStateC5.participants))
      ∧ winnerInv (generatePairingsPre ((fun l => l) wStateC5.participants))) :=
  ⟨by decide,
    winner_slot_invariant (fun l => l) wStateC5 { id := "9", username := "Z" } "A"
      (by decide)⟩

/- ### Claim C10: winner declaration resolves by username, first match only -/

/-- Claim C10: the `/updatewinner` handlers identify the player purely by
`username` (players with equal usernames are indistinguishable), and the
search resolves exactly the first unresolved match in bracket order whose
`p1` or `p2` equals the username, leaving every other match untouched;
when matchIds are sequential this is the candidate with the least
matchId. -/
theorem declareWinner_by_username (shuffle : List Player → List Player)
    (s : TournamentState) (w1 w2 : Player) (u : String) (br br' : List Match)
    (husername : w1.username = w2.username)
    (hset : setFirstWinner br u = some br') :
    declareWinnerA shuffle s w1.username = declareWinnerA shuffle s w2.username
    ∧ declareWinnerB shuffle s w1.username = declareWinnerB shuffle s w2.username
    ∧ declareWinnerBp shuffle s w1.username = declareWinnerBp shuffle s w2.username
    ∧ ∃ i, ∃ hi : i < br.length,
        ((br.get ⟨i, hi⟩).winner = none
          ∧ ((br.get ⟨i, hi⟩).p1 = u ∨ (br.get ⟨i, hi⟩).p2 = u))
        ∧ (∀ j, ∀ hj : j < br.length, j < i →
            ¬((br.get ⟨j, hj⟩).winner = none
              ∧ ((br.get ⟨j, hj⟩).p1 = u ∨ (br.get ⟨j, hj⟩).p2 = u)))
        ∧ br' = br.set i { br.get ⟨i, hi⟩ with winner := some u }
        ∧ ((∀ j, ∀ hj : j < br.length, (br.get ⟨j, hj⟩).matchId = j + 1) →
            ∀ j, ∀ hj : j < br.length,
              ((br.get ⟨j, hj⟩).winner = none
                ∧ ((br.get ⟨j, hj⟩).p1 = u ∨ (br.get ⟨j, hj⟩).p2 = u)) →
              (br.get ⟨i, hi⟩).matchId ≤ (br.get ⟨j, hj⟩).matchId) := by
  refine ⟨by rw [husername], by rw [husername], by rw [husername], ?_⟩
  obtain ⟨i, hi, hw, hp, hleast, hset'⟩ := setFirstWinner_some_spec u br br' hset
  refine ⟨i, hi, ⟨hw, hp⟩, hleast, hset', ?_⟩
  intro hids j hj hcand
  rw [hids i hi, hids j hj]
  by_cases hij : j < i
  · exact absurd hcand (hleast j hj hij)
  · omega

/-- Witness bracket for Claim C10. -/
def wBracketC10 : List Match :=
  [{ matchId := 1, p1 := "A", p2 := "B", winner := some "A" },
   { matchId := 2, p1 := "C", p2 := "D", winner := none }]

/-- Witness for Claim C10: two distinct players both named `C`, and the
concrete search that resolves match 2. -/
theorem declareWinner_by_username_witness :
    (({ id := "9", username := "C" } : Player).username
        = ({ id := "10", username := "C" } : Player).username
      ∧ setFirstWinner wBracketC10 "C"
          = some [{ matchId := 1, p1 := "A", p2 := "B", winner := some "A" },
                  { matchId := 2, p1 := "C", p2 := "D", winner := some "C" }])
    ∧ (declareWinnerA (fun l => l) wStateC5 ({ id := "9", username := "C" } : Player).username
        = declareWinnerA (fun l => l) wStateC5 ({ id := "10", username := "C" } : Player).username
      ∧ declareWinnerB (fun l => l) wStateC5 ({ id := "9", username := "C" } : Player).username
        = declareWinnerB (fun l => l) wStateC5 ({ id := "10", username := "C" } : Player).username
      ∧ declareWinnerBp (fun l => l) wStateC5 ({ id := "9", username := "C" } : Player).username
        = declareWinnerBp (fun l => l) wStateC5 ({ id := "10", username := "C" } : Player).username
      ∧ ∃ i, ∃ hi : i < wBracketC10.length,
          ((wBracketC10.get ⟨i, hi⟩).winner = none
            ∧ ((wBracketC10.get ⟨i, hi⟩).p1 = "C" ∨ (wBracketC10.get ⟨i, hi⟩).p2 = "C"))
          ∧ (∀ j, ∀ hj : j < wBracketC10.length, j < i →
              ¬((wBracketC10.get ⟨j, hj⟩).winner = none
                ∧ ((wBracketC10.get ⟨j, hj⟩).p1 = "C" ∨ (wBracketC10.get ⟨j, hj⟩).p2 = "C")))
          ∧ [{ matchId := 1, p1 := "A", p2 := "B", winner := some "A" },
             { matchId := 2, p1 := "C", p2 := "D", winner := some "C" }]
              = wBracketC10.set i { wBracketC10.get ⟨i, hi⟩ with winner := some "C" }
          ∧ ((∀ j, ∀ hj : j < wBracketC10.length, (wBracketC10.get ⟨j, hj⟩).matchId = j + 1) →
              ∀ j, ∀ hj : j < wBracketC10.length,
                ((wBracketC10.get ⟨j, hj⟩).winner = none
                  ∧ ((wBracketC10.get ⟨j, hj⟩).p1 = "C" ∨ (wBracketC10.get ⟨j, hj⟩).p2 = "C")) →
                (wBracketC10.get ⟨i, hi⟩).matchId ≤ (wBracketC10.get ⟨j, hj⟩).matchId)) :=
  ⟨⟨rfl, by decide⟩,
    declareWinner_by_username (fun l => l) wStateC5
      { id := "9", username := "C" } { id := "10", username := "C" } "C"
      wBracketC10
      [{ matchId := 1, p1 := "A", p2 := "B", winner := some "A" },
       { matchId := 2, p1 := "C", p2 := "D", winner := some "C" }]
      rfl (by decide)⟩

/- ### Claim C4: behaviour on fewer than two contestants -/

/-- Claim C4 counterexample: `index.js`'s `generatePairings` has no size
guard.  On the singleton roster `[A]` (a singleton list has itself as its
only permutation, so this covers every shuffle outcome) it does not fail
with any error: it returns a full round consisting of the single match
`A` vs `A`, pairing the player against themself. -/
theorem generatePairings_singleton_self_pairing :
    generatePairings [{ id := "1", username := "A" }]
      = [{ matchId := 1, p1 := "A", p2 := "A", winner := none }] := by decide

/-- Claim C4 amended: no `InsufficientContestants` error value exists in
any variant.  The `part_001` variants return the empty round (no matches,
hence in particular no self-pairing) for fewer than two contestants,
while the unguarded `index.js`/`part_000` variant returns a self-pairing
round on a singleton roster and a BYE-vs-BYE match on an empty one. -/
theorem pairing_small_input_policy (shuffled : List Player) (p : Player)
    (h : shuffled.length < 2) :
    generatePairingsG shuffled = []
    ∧ generatePairingsPre shuffled = []
    ∧ generatePairings [p]
        = [{ matchId := 1, p1 := p.username, p2 := p.username, winner := none }]
    ∧ generatePairings []
        = [{ matchId := 1, p1 := "BYE", p2 := "BYE", winner := none }] := by
  refine ⟨?_, ?_, ?_, by decide⟩
  · rw [generatePairingsG, if_pos h]
  · rw [generatePairingsPre, if_pos h]
  · have h1 : List.range 1 = [0] := rfl
    simp [generatePairings, padWithByes, makePairings, nextPowerOfTwo, nextPowGo,
      h1, pairOf]

/-- Witness for the amended Claim C4 at concrete inputs. -/
theorem pairing_small_input_policy_witness :
    (([{ id := "7", username := "Q" }] : List Player).length < 2)
    ∧ (generatePairingsG [{ id := "7", username := "Q" }] = []
      ∧ generatePairingsPre [{ id := "7", username := "Q" }] = []
      ∧ generatePairings [{ id := "9", username := "R" }]
          = [{ matchId := 1, p1 := "R", p2 := "R", winner := none }]
      ∧ generatePairings []
          = [{ matchId := 1, p1 := "BYE", p2 := "BYE", winner := none }]) :=
  ⟨by decide,
    pairing_small_input_policy [{ id := "7", username := "Q" }]
      { id := "9", username := "R" } (by decide)⟩

/- ### Claim C8: join after completion is silently dropped -/

/-- State of a finished tournament (`isActive = false` after completion),
for the C8 counterexample. -/
def wStateCompleted : TournamentState :=
  { isActive := false, channelId := some "c", messageId := some "m"
    participants := [{ id := "1", username := "A" }, { id := "2", username := "B" }]
    details := "t"
    bracket := [{ matchId := 1, p1 := "A", p2 := "CHAMPION", winner := some "A" }] }

/-- Claim C8 counterexample: a join delivered after completion leaves the
roster unchanged (that half of the claim holds), but it produces NO
synchronous report of any kind - the reaction handler returns before doing
anything, so the effect list is empty: no reply, no log, no post edit,
and no error value named `NoActiveTournament` exists anywhere in the
code.  This refutes "fails with the NoActiveTournament error reported to
the caller". -/
theorem join_after_completion_silent :
    joinA (fun l => l) wStateCompleted { id := "3", username := "C" }
        = (wStateCompleted, [])
    ∧ joinB (fun l => l) wStateCompleted { id := "3", username := "C" }
        = (wStateCompleted, [])
    ∧ joinV1 (fun l => l) wStateCompleted { id := "3", username := "C" }
        = (wStateCompleted, []) := by decide

/-- Claim C8 amended: a join delivered while the tournament is not active
(`isActive = false` covers both the idle and the completed state) is
silently dropped: the whole state - roster included - is unchanged and no
effect is produced, in every handler variant. -/
theorem join_inactive_silently_dropped (shuffle : List Player → List Player)
    (s : TournamentState) (u : Player) (h : s.isActive = false) :
    joinA shuffle s u = (s, [])
    ∧ joinB shuffle s u = (s, [])
    ∧ joinV1 shuffle s u = (s, []) :=
  ⟨joinA_inactive shuffle s u h, joinB_inactive shuffle s u h,
    joinV1_inactive shuffle s u h⟩

/-- Witness for the amended Claim C8 at a concrete completed state. -/
theorem join_inactive_silently_dropped_witness :
    wStateCompleted.isActive = false
    ∧ (joinA (fun l => l) wStateCompleted { id := "4", username := "D" }
          = (wStateCompleted, [])
      ∧ joinB (fun l => l) wStateCompleted { id := "4", username := "D" }
          = (wStateCompleted, [])
      ∧ joinV1 (fun l => l) wStateCompleted { id := "4", username := "D" }
          = (wStateCompleted, [])) :=
  ⟨rfl, join_inactive_silently_dropped (fun l => l) wStateCompleted
    { id := "4", username := "D" } rfl⟩

/- ### The part_001 advancement dichotomy, stated symbolically -/

/-- The second `part_001` handler satisfies the specified dichotomy: when
a declaration completes the round, the winners found among the
participants either (exactly one) give the champion with the tournament
deactivated, or (more than one) are re-paired into the next round with
the tournament kept active - no champion is declared while more than one
winner remains. -/
theorem declareWinnerB_round_advancement (shuffle : List Player → List Player)
    (s : TournamentState) (u : String) (br : List Match)
    (hact : ¬ s.isActive = false)
    (hguard : ¬ (s.participants.length < 2 ∨ s.bracket.length = 0))
    (hset : setFirstWinner s.bracket u = some br)
    (hall : br.all (fun m => m.winner.isSome) = true) :
    (((br.filterMap (fun m => s.participants.find?
          (fun p => m.winner = some p.username))).length = 1) →
        ∃ c, declareWinnerB shuffle s u
            = (updateTournamentPostB shuffle
                { s with
                  bracket := [{ matchId := 1, p1 := c, p2 := "CHAMPION", winner := some c }]
                  isActive := false },
               OutcomeB.champion c)
          ∧ (declareWinnerB shuffle s u).1.isActive = false)
    ∧ ((1 < (br.filterMap (fun m => s.participants.find?
          (fun p => m.winner = some p.username))).length) →
        declareWinnerB shuffle s u
            = (updateTournamentPostB shuffle
                { s with bracket := generatePairingsG (shuffle
                    (br.filterMap (fun m => s.participants.find?
                      (fun p => m.winner = some p.username)))) },
               OutcomeB.nextRound (generatePairingsG (shuffle
                    (br.filterMap (fun m => s.participants.find?
                      (fun p => m.winner = some p.username))))).length)
          ∧ (declareWinnerB shuffle s u).1.isActive = s.isActive) := by
  constructor
  · intro hone
    refine ⟨((br.filterMap (fun m => s.participants.find?
        (fun p => m.winner = some p.username))).headD BYEplayer).username, ?_, ?_⟩
    · simp only [declareWinnerB, if_neg hact, if_neg hguard, hset, hall, if_pos hone,
        if_true]
    · simp only [declareWinnerB, if_neg hact, if_neg hguard, hset, hall, if_pos hone,
        if_true]
      rw [(updateTournamentPostB_frame shuffle _).1]
  · intro hmore
    have hnone : ¬ ((br.filterMap (fun m => s.participants.find?
        (fun p => m.winner = some p.username))).length = 1) := by omega
    constructor
    · simp only [declareWinnerB, if_neg hact, if_neg hguard, hset, hall,
        if_neg hnone, if_pos hmore, if_true, if_false]
    · simp only [declareWinnerB, if_neg hact, if_neg hguard, hset, hall,
        if_neg hnone, if_pos hmore, if_true, if_false]
      rw [(updateTournamentPostB_frame shuffle _).1]

/- ### Claims C1 and C2: the index.js advancement logic is broken -/

/-- Four-player in-progress state whose round has one unresolved match
left (`A` already beat `B`; `C` vs `D` is open). -/
def wStateC1 : TournamentState :=
  { isActive := true, channelId := some "c", messageId := some "m"
    participants := [{ id := "1", username := "A" }, { id := "2", username := "B" },
      { id := "3", username := "C" }, { id := "4", username := "D" }]
    details := "t"
    bracket := [{ matchId := 1, p1 := "A", p2 := "B", winner := some "A" },
      { matchId := 2, p1 := "C", p2 := "D", winner := none }] }

/-- Claim C1, bug in `index.js`/`part_000`: declaring `C` winner of the
last open match completes the round with two distinct non-BYE winners,
`A` and `C`.  The `index.js` handler regenerates the round, sees the new
round has exactly one match, and immediately announces `bracket[0].p1`
(`A` under the identity shuffle - a shuffle-dependent choice) as champion
of the whole tournament and deactivates it, although the final `A` vs `C`
match is still unplayed (`winner = none`).  The `part_001` handlers on
the same input start the next round and keep the tournament active, which
is what the claim demands. -/
theorem updatewinner_premature_champion :
    declareWinnerA (fun l => l) wStateC1 "C"
      = ({ wStateC1 with
            bracket := [{ matchId := 1, p1 := "A", p2 := "C", winner := none }]
            isActive := false },
         OutcomeA.champion "A")
    ∧ declareWinnerB (fun l => l) wStateC1 "C"
      = ({ wStateC1 with
            bracket := [{ matchId := 1, p1 := "A", p2 := "C", winner := none }] },
         OutcomeB.nextRound 1)
    ∧ declareWinnerBp (fun l => l) wStateC1 "C"
      = ({ wStateC1 with
            bracket := [{ matchId := 1, p1 := "A", p2 := "C", winner := none }] },
         OutcomeB.nextRound 1) := by decide

/-- Two-player in-progress state with its generated single-match round. -/
def wStateC2 : TournamentState :=
  { isActive := true, channelId := some "c", messageId := some "m"
    participants := [{ id := "1", username := "A" }, { id := "2", username := "B" }]
    details := "t"
    bracket := [{ matchId := 1, p1 := "A", p2 := "B", winner := none }] }

/-- `wStateC2` after its only match has been resolved in favour of `A`. -/
def wStateC2done : TournamentState :=
  { wStateC2 with bracket := [{ matchId := 1, p1 := "A", p2 := "B", winner := some "A" }] }

/-- Claim C2, bug in `index.js`/`part_000`: for `n = 2` the claim demands
termination after exactly `ceil(log2 2) = 1` round with one champion.
Under the `index.js` machine, resolving the only match of the round
records the winner, but since `bracket.length > 1` fails, no champion is
ever declared and the tournament stays active; both further declaration
attempts fail with the no-match error, so the tournament is stuck with
zero champions.  The `part_001` machines on the same input declare
champion `A` after the single round, as the claim demands. -/
theorem two_player_tournament_stalls :
    declareWinnerA (fun l => l) wStateC2 "A" = (wStateC2done, OutcomeA.recorded)
    ∧ wStateC2done.isActive = true
    ∧ declareWinnerA (fun l => l) wStateC2done "A" = (wStateC2done, OutcomeA.noMatch)
    ∧ declareWinnerA (fun l => l) wStateC2done "B" = (wStateC2done, OutcomeA.noMatch)
    ∧ declareWinnerB (fun l => l) wStateC2 "A"
      = ({ wStateC2 with
            bracket := [{ matchId := 1, p1 := "A", p2 := "CHAMPION", winner := some "A" }]
            isActive := false },
         OutcomeB.champion "A")
    ∧ declareWinnerBp (fun l => l) wStateC2 "A"
      = ({ wStateC2 with
            bracket := [{ matchId := 1, p1 := "A", p2 := "CHAMPION", winner := some "A" }]
            isActive := false },
         OutcomeB.champion "A") := by decide

end Tournament
